import Mathlib

/-!
Verification development for the posture classification engine of
`src/components/ui/posture.py`: baseline calibration, per-frame deviation
classification against the baseline, and majority-vote sliding-window
hysteresis over three fixed-capacity boolean windows.

The window engine is embedded as computable functions on `List Bool`
(newest entry at the right, matching `deque.append`).  The geometry and
the per-frame pipeline work over exact real arithmetic; since real
division, square root and arccosine are not computable in Lean, those
parts are embedded relationally: a `Prop`-valued definition relates the
inputs of a source fragment to its outcome (`Except` distinguishes the
exceptional exits of the Python code from its normal value).
-/

namespace Posture

/-! ### Hysteresis window engine

The source keeps three `deque(maxlen=100)` buffers of 0/1 flags
(`slouch_window`, `side_window`, `head_window`) and alerts on a buffer
exactly when `len(buf) == WINDOW_SIZE and sum(buf) >= REQUIRED_BAD`.
A `deque` with `maxlen` discards the oldest (leftmost) element when an
append would exceed capacity.  A 0/1 entry is modelled as a `Bool`, so
`sum` becomes the count of `true` entries. -/

def WINDOW_SIZE : Nat := 100

def REQUIRED_BAD : Nat := 80

/-- One `append` on a `deque(maxlen=WINDOW_SIZE)`: if the buffer is not
yet full the value goes on the right; otherwise the oldest (leftmost)
entry is dropped to make room. -/
def push (w : List Bool) (b : Bool) : List Bool :=
  if w.length < WINDOW_SIZE then w ++ [b] else w.tail ++ [b]

/-- Alert condition of the source:
`len(window) == WINDOW_SIZE and sum(window) >= REQUIRED_BAD`. -/
def isAlerting (w : List Bool) : Bool :=
  w.length == WINDOW_SIZE && decide (REQUIRED_BAD ≤ w.count true)

/-- The buffer obtained by appending a whole observation sequence to an
initially empty window. -/
def window (obs : List Bool) : List Bool :=
  obs.foldl push []

theorem length_push (w : List Bool) (b : Bool) :
    (push w b).length = if w.length < WINDOW_SIZE then w.length + 1 else w.length := by
  unfold push
  split
  · simp
  · next h =>
    have : w.length ≥ 1 := by
      unfold WINDOW_SIZE at h; omega
    simp [List.length_tail]
    omega

theorem length_push_le (w : List Bool) (b : Bool) (hw : w.length ≤ WINDOW_SIZE) :
    (push w b).length ≤ WINDOW_SIZE := by
  rw [length_push]
  split <;> omega

/-- Appending a sequence to a buffer keeps, in order, the last
`WINDOW_SIZE` of the concatenated entries. -/
theorem foldl_push_eq (obs : List Bool) :
    ∀ w : List Bool, w.length ≤ WINDOW_SIZE →
      obs.foldl push w = (w ++ obs).drop ((w ++ obs).length - WINDOW_SIZE) := by
  induction obs with
  | nil =>
    intro w hw
    simp only [List.foldl_nil, List.append_nil]
    rw [Nat.sub_eq_zero_of_le hw, List.drop_zero]
  | cons x obs ih =>
    intro w hw
    rw [List.foldl_cons]
    by_cases hlt : w.length < WINDOW_SIZE
    · have hpush : push w x = w ++ [x] := by simp [push, hlt]
      have hlen : (push w x).length ≤ WINDOW_SIZE := length_push_le w x hw
      rw [ih (push w x) hlen, hpush, List.append_assoc]
      simp
    · have hpush : push w x = w.tail ++ [x] := by simp [push, hlt]
      have hlen : (push w x).length ≤ WINDOW_SIZE := length_push_le w x hw
      rw [ih (push w x) hlen, hpush]
      cases w with
      | nil =>
        exfalso
        unfold WINDOW_SIZE at hlt
        simp at hlt
      | cons a t =>
        simp only [List.tail_cons, List.append_assoc, List.singleton_append,
          List.cons_append]
        have hcount : (a :: (t ++ x :: obs)).length - WINDOW_SIZE
            = ((t ++ x :: obs).length - WINDOW_SIZE) + 1 := by
          unfold WINDOW_SIZE at hlt ⊢
          simp only [List.length_cons, List.length_append] at hlt ⊢
          omega
        rw [hcount]
        rfl

theorem window_eq_self (obs : List Bool) (h : obs.length ≤ WINDOW_SIZE) :
    window obs = obs := by
  unfold window
  rw [foldl_push_eq obs [] (by simp)]
  simp [Nat.sub_eq_zero_of_le h]

theorem length_foldl_push_le (obs : List Bool) :
    ∀ w : List Bool, w.length ≤ WINDOW_SIZE →
      (obs.foldl push w).length ≤ WINDOW_SIZE := by
  induction obs with
  | nil => intro w hw; simpa using hw
  | cons x obs ih =>
    intro w hw
    rw [List.foldl_cons]
    exact ih (push w x) (length_push_le w x hw)

/-- C1: an alert is raised on a window exactly when the window holds
exactly `WINDOW_SIZE = 100` observations and at least `REQUIRED_BAD = 80`
of them are `true`; for a sequence of exactly 100 observations the alert
holds iff at least 80 are `true`, and for fewer than 100 observations the
alert is `false` regardless of values. -/
theorem alert_iff_full_and_supermajority (obs : List Bool) :
    (isAlerting (window obs) = true ↔
      (window obs).length = WINDOW_SIZE ∧ REQUIRED_BAD ≤ (window obs).count true)
    ∧ (obs.length = WINDOW_SIZE →
        (isAlerting (window obs) = true ↔ REQUIRED_BAD ≤ obs.count true))
    ∧ (obs.length < WINDOW_SIZE → isAlerting (window obs) = false) := by
  refine ⟨?_, ?_, ?_⟩
  · simp [isAlerting]
  · intro h
    rw [window_eq_self obs (le_of_eq h)]
    simp [isAlerting, h]
  · intro h
    rw [window_eq_self obs (le_of_lt h)]
    simp [isAlerting, Nat.ne_of_lt h]

theorem alert_iff_full_and_supermajority_witness :
    isAlerting (window (List.replicate WINDOW_SIZE true)) = true :=
  ((alert_iff_full_and_supermajority (List.replicate WINDOW_SIZE true)).2.1
      (by simp)).mpr (by simp [WINDOW_SIZE, REQUIRED_BAD])

/-- C4: each window is an order-preserving FIFO ring buffer of capacity
100 with oldest-eviction: appending any 150 observations to a window
leaves exactly the last 100 of them in arrival order, and the length
never exceeds 100 at any point of the sequence. -/
theorem window_fifo (w obs : List Bool) (hw : w.length ≤ WINDOW_SIZE)
    (h : obs.length = 150) :
    obs.foldl push w = obs.drop 50
    ∧ (obs.foldl push w).length = WINDOW_SIZE
    ∧ ∀ n : Nat, ((obs.take n).foldl push w).length ≤ WINDOW_SIZE := by
  have hmain : obs.foldl push w = obs.drop 50 := by
    rw [foldl_push_eq obs w hw]
    have hcount : (w ++ obs).length - WINDOW_SIZE = w.length + 50 := by
      unfold WINDOW_SIZE
      simp only [List.length_append, h]
      omega
    rw [hcount, ← List.drop_drop, List.drop_left]
  refine ⟨hmain, ?_, ?_⟩
  · rw [hmain, List.length_drop, h]
    rfl
  · intro n
    exact length_foldl_push_le (obs.take n) w hw

theorem window_fifo_witness :
    (List.replicate 150 true).foldl push [] = (List.replicate 150 true).drop 50 :=
  (window_fifo [] (List.replicate 150 true) (by simp) (by simp)).1

/-! ### Geometry utility

The source's `angle_between(p1, p2, p3)` forms the 2D vectors `p2 -> p1`
and `p2 -> p3`, takes their magnitudes with `math.hypot`, and returns
`math.degrees(math.acos(dot / (mag1 * mag2)))` with no guard: dividing
by a zero magnitude raises `ZeroDivisionError`, and an `acos` argument
outside `[-1, 1]` raises `ValueError` (math domain error).  Real
division, square root and arccosine are noncomputable in Lean, so the
function is embedded as a relation between the three points and the
outcome of the computation under exact real arithmetic. -/

/-- A landmark coordinate as delivered by the pose estimator. -/
structure Point3 where
  x : ℝ
  y : ℝ
  z : ℝ

/-- The two abnormal exits of `angle_between`: `zeroDivision` is the
`ZeroDivisionError` from `dot / (mag1 * mag2)` when a magnitude is zero,
and `mathDomain` is the `ValueError` raised by `math.acos` on an
argument outside `[-1, 1]`. -/
inductive AngleError where
  | zeroDivision
  | mathDomain
deriving DecidableEq

/-- The x component of the vector `q -> p`. -/
def vx (p q : Point3) : ℝ := p.x - q.x

/-- The y component of the vector `q -> p`. -/
def vy (p q : Point3) : ℝ := p.y - q.y

/-- The dot product `v1[0]*v2[0] + v1[1]*v2[1]` of the two vectors. -/
def dot2 (p1 p2 p3 : Point3) : ℝ := vx p1 p2 * vx p3 p2 + vy p1 p2 * vy p3 p2

/-- Squared magnitude of the vector `q -> p`; `math.hypot(*v)` is its
square root. -/
def magSq (p q : Point3) : ℝ := vx p q ^ 2 + vy p q ^ 2

/-- Relational embedding of `angle_between(p1, p2, p3)`.  The three
disjuncts are, in the order the Python evaluation can take them: the
division-by-zero exit, the `acos` domain-error exit, and the normal
return `math.degrees(math.acos(dot / (mag1 * mag2)))`. -/
def angleRel (p1 p2 p3 : Point3) (result : Except AngleError ℝ) : Prop :=
  (Real.sqrt (magSq p1 p2) * Real.sqrt (magSq p3 p2) = 0 ∧
    result = .error .zeroDivision) ∨
  (Real.sqrt (magSq p1 p2) * Real.sqrt (magSq p3 p2) ≠ 0 ∧
    (dot2 p1 p2 p3 / (Real.sqrt (magSq p1 p2) * Real.sqrt (magSq p3 p2)) < -1 ∨
      1 < dot2 p1 p2 p3 / (Real.sqrt (magSq p1 p2) * Real.sqrt (magSq p3 p2))) ∧
    result = .error .mathDomain) ∨
  (Real.sqrt (magSq p1 p2) * Real.sqrt (magSq p3 p2) ≠ 0 ∧
    -1 ≤ dot2 p1 p2 p3 / (Real.sqrt (magSq p1 p2) * Real.sqrt (magSq p3 p2)) ∧
    dot2 p1 p2 p3 / (Real.sqrt (magSq p1 p2) * Real.sqrt (magSq p3 p2)) ≤ 1 ∧
    result = .ok (Real.arccos (dot2 p1 p2 p3 /
      (Real.sqrt (magSq p1 p2) * Real.sqrt (magSq p3 p2))) * 180 / Real.pi))

/-- Cauchy-Schwarz in two dimensions, in the form the `acos` argument
needs: the dot product is bounded by the product of magnitudes. -/
theorem abs_dot2_le (p1 p2 p3 : Point3) :
    |dot2 p1 p2 p3| ≤ Real.sqrt (magSq p1 p2) * Real.sqrt (magSq p3 p2) := by
  unfold dot2 magSq
  rw [← Real.sqrt_mul (by positivity)]
  rw [show |vx p1 p2 * vx p3 p2 + vy p1 p2 * vy p3 p2|
      = Real.sqrt ((vx p1 p2 * vx p3 p2 + vy p1 p2 * vy p3 p2) ^ 2) from
    (Real.sqrt_sq_eq_abs _).symm]
  apply Real.sqrt_le_sqrt
  nlinarith [sq_nonneg (vx p1 p2 * vy p3 p2 - vy p1 p2 * vx p3 p2)]

/-- When neither vector has zero magnitude, the unclamped `acos`
argument lies in `[-1, 1]` in exact real arithmetic. -/
theorem acos_arg_in_domain (p1 p2 p3 : Point3)
    (h : Real.sqrt (magSq p1 p2) * Real.sqrt (magSq p3 p2) ≠ 0) :
    -1 ≤ dot2 p1 p2 p3 / (Real.sqrt (magSq p1 p2) * Real.sqrt (magSq p3 p2))
    ∧ dot2 p1 p2 p3 / (Real.sqrt (magSq p1 p2) * Real.sqrt (magSq p3 p2)) ≤ 1 := by
  have hm0 : 0 ≤ Real.sqrt (magSq p1 p2) * Real.sqrt (magSq p3 p2) := by positivity
  have hmpos : 0 < Real.sqrt (magSq p1 p2) * Real.sqrt (magSq p3 p2) :=
    lt_of_le_of_ne hm0 (Ne.symm h)
  have hb := abs_dot2_le p1 p2 p3
  have hb2 := abs_le.mp hb
  constructor
  · rw [le_div_iff₀ hmpos]
    linarith [hb2.1]
  · rw [div_le_one hmpos]
    linarith [hb2.2]

/-- The product of the magnitudes vanishes exactly when one of the two
vectors is the zero vector. -/
theorem mag_prod_eq_zero_iff (p1 p2 p3 : Point3) :
    Real.sqrt (magSq p1 p2) * Real.sqrt (magSq p3 p2) = 0 ↔
      (vx p1 p2 = 0 ∧ vy p1 p2 = 0) ∨ (vx p3 p2 = 0 ∧ vy p3 p2 = 0) := by
  unfold magSq
  rw [mul_eq_zero, Real.sqrt_eq_zero', Real.sqrt_eq_zero']
  constructor
  · rintro (h | h)
    · left
      constructor
      · have h2 : vx p1 p2 ^ 2 = 0 :=
          le_antisymm (by nlinarith [sq_nonneg (vy p1 p2)]) (sq_nonneg _)
        exact pow_eq_zero_iff two_ne_zero |>.mp h2
      · have h2 : vy p1 p2 ^ 2 = 0 :=
          le_antisymm (by nlinarith [sq_nonneg (vx p1 p2)]) (sq_nonneg _)
        exact pow_eq_zero_iff two_ne_zero |>.mp h2
    · right
      constructor
      · have h2 : vx p3 p2 ^ 2 = 0 :=
          le_antisymm (by nlinarith [sq_nonneg (vy p3 p2)]) (sq_nonneg _)
        exact pow_eq_zero_iff two_ne_zero |>.mp h2
      · have h2 : vy p3 p2 ^ 2 = 0 :=
          le_antisymm (by nlinarith [sq_nonneg (vx p3 p2)]) (sq_nonneg _)
        exact pow_eq_zero_iff two_ne_zero |>.mp h2
  · rintro (⟨ha, hb⟩ | ⟨ha, hb⟩)
    · left
      rw [ha, hb]
      norm_num
    · right
      rw [ha, hb]
      norm_num

/-- C3 (exact-arithmetic behaviour of the unguarded code): every outcome
of `angle_between` is either the normal return or the division-by-zero
exit, the latter exactly when one of the vectors `p2 -> p1`, `p2 -> p3`
is zero; the `acos` domain-error exit is unreachable in exact real
arithmetic, because Cauchy-Schwarz keeps the unclamped argument inside
`[-1, 1]` - there is no clamp in the code, so under floating point this
margin-free bound can be overshot. -/
theorem angle_error_exact (p1 p2 p3 : Point3) (r : Except AngleError ℝ)
    (h : angleRel p1 p2 p3 r) :
    r ≠ Except.error AngleError.mathDomain
    ∧ (r = Except.error AngleError.zeroDivision ↔
        (vx p1 p2 = 0 ∧ vy p1 p2 = 0) ∨ (vx p3 p2 = 0 ∧ vy p3 p2 = 0)) := by
  rcases h with ⟨hm, hr⟩ | ⟨hm, hc, hr⟩ | ⟨hm, hc1, hc2, hr⟩
  · subst hr
    refine ⟨by simp, ?_⟩
    simp only [true_iff, Except.error.injEq]
    exact (mag_prod_eq_zero_iff p1 p2 p3).mp hm
  · exfalso
    have := acos_arg_in_domain p1 p2 p3 hm
    rcases hc with hc | hc
    · linarith [this.1]
    · linarith [this.2]
  · subst hr
    refine ⟨by simp, ?_⟩
    constructor
    · intro hcontra
      exact absurd hcontra (by simp)
    · intro hzero
      exact absurd ((mag_prod_eq_zero_iff p1 p2 p3).mpr hzero) hm

theorem angle_error_exact_witness :
    (Except.error AngleError.zeroDivision : Except AngleError ℝ)
      ≠ Except.error AngleError.mathDomain :=
  (angle_error_exact ⟨0, 0, 0⟩ ⟨0, 0, 0⟩ ⟨1, 0, 0⟩ (.error .zeroDivision)
    (Or.inl ⟨by norm_num [magSq, vx, vy], rfl⟩)).1

/-! ### Frame data, metric extraction and deviation classification -/

/-- The five landmarks the frame loop reads from the pose result. -/
structure Landmarks where
  nose : Point3
  left_ear : Point3
  right_shoulder : Point3
  left_shoulder : Point3
  left_hip : Point3

/-- The three per-frame scalar metrics; the baseline captured on a
calibration frame has the same shape. -/
structure FrameMetrics where
  head_forward : ℝ
  head_side_slouch : ℝ
  head_angle : ℝ

/-- Relational embedding of the per-frame metric computation
(`head_forward`, `head_side_slouch`, `head_angle`): an error raised by
`angle_between` propagates, otherwise the three metrics are returned. -/
def extractRel (lm : Landmarks) (result : Except AngleError FrameMetrics) : Prop :=
  (∃ e, angleRel lm.left_shoulder lm.left_ear lm.nose (.error e) ∧
    result = .error e) ∨
  (∃ θ, angleRel lm.left_shoulder lm.left_ear lm.nose (.ok θ) ∧
    result = .ok { head_forward := lm.right_shoulder.x - lm.left_ear.x
                 , head_side_slouch := |lm.left_ear.z - lm.left_hip.z|
                 , head_angle := θ })

/-- The three per-frame deviation flags (Python booleans). -/
structure DeviationFlags where
  is_slouch : Prop
  is_side_slouch : Prop
  is_head_lowered : Prop

/-- Embedding of the per-frame comparison against the baseline:
absolute differences per axis, compared against the fixed tolerances of
the source (`> 0.01`, `> 0.05`, `> 10`). -/
def classify (m base : FrameMetrics) : DeviationFlags where
  is_slouch := |m.head_forward - base.head_forward| > 0.01
  is_side_slouch := |m.head_side_slouch - base.head_side_slouch| > 0.05
  is_head_lowered := |m.head_angle - base.head_angle| > 10

/-- C5: the classifier sets `is_slouch` iff the forward metric deviates
from the baseline by more than 0.01, `is_side_slouch` iff the side
metric deviates by more than 0.05, and `is_head_lowered` iff the angle
deviates by more than 10 degrees; it is a pure function of the pair
`(metrics, baseline)` (it is a Lean function of exactly those two
arguments, so it can mutate nothing). -/
theorem classify_thresholds (m base : FrameMetrics) :
    ((classify m base).is_slouch ↔ |m.head_forward - base.head_forward| > 0.01)
    ∧ ((classify m base).is_side_slouch ↔
        |m.head_side_slouch - base.head_side_slouch| > 0.05)
    ∧ ((classify m base).is_head_lowered ↔ |m.head_angle - base.head_angle| > 10) :=
  ⟨Iff.rfl, Iff.rfl, Iff.rfl⟩

/-- C6: on a frame whose metric extraction succeeds, the metrics are
exactly `head_forward = rightShoulder.x - leftEar.x`,
`head_side_slouch = |leftEar.z - leftHip.z|`, and `head_angle` the
result of `angle_between(leftShoulder, leftEar, nose)` (vertex at the
left ear), with no smoothing applied. -/
theorem extract_metric_formulas (lm : Landmarks) (m : FrameMetrics)
    (h : extractRel lm (.ok m)) :
    m.head_forward = lm.right_shoulder.x - lm.left_ear.x
    ∧ m.head_side_slouch = |lm.left_ear.z - lm.left_hip.z|
    ∧ angleRel lm.left_shoulder lm.left_ear lm.nose (.ok m.head_angle) := by
  rcases h with ⟨e, _, heq⟩ | ⟨θ, ha, heq⟩
  · exact absurd heq (by simp)
  · have hm := Except.ok.inj heq
    subst hm
    exact ⟨rfl, rfl, ha⟩

/-! ### Pipeline state and per-frame transition

The orchestrator's mutable state: the optional baseline and the three
hysteresis windows.  One loop iteration with landmarks present computes
the metrics, sets the baseline if the calibration key was pressed this
frame, and then - because the source guards classification with
`if baseline:` and not with an `else` - classifies against whatever
baseline is now current (including one set on this very frame),
appending one flag to each of the three windows. -/

structure CoreState where
  baseline : Option FrameMetrics
  slouch_window : List Bool
  side_window : List Bool
  head_window : List Bool

/-- State at program start: uncalibrated, all windows empty. -/
def initState : CoreState :=
  { baseline := none, slouch_window := [], side_window := [], head_window := [] }

/-- Baseline update of one frame: `baseline = {...}` when the
calibration key was pressed, otherwise unchanged. -/
def postCalib (s : CoreState) (calibrate : Bool) (m : FrameMetrics) : CoreState :=
  if calibrate then { s with baseline := some m } else s

/-- The part of a landmark frame after metric extraction and the
calibration command: if no baseline is present the state is left as is;
otherwise the three flags of `classify` are appended to the windows
(`1 if flag else 0` in the source becomes a `Bool` entry). -/
def afterMetrics (s1 : CoreState) (m : FrameMetrics)
    (out : Except AngleError CoreState) : Prop :=
  (s1.baseline = none ∧ out = .ok s1) ∨
  (∃ base, s1.baseline = some base ∧
    ∃ b1 b2 b3 : Bool,
      (b1 = true ↔ (classify m base).is_slouch) ∧
      (b2 = true ↔ (classify m base).is_side_slouch) ∧
      (b3 = true ↔ (classify m base).is_head_lowered) ∧
      out = .ok { s1 with
        slouch_window := push s1.slouch_window b1,
        side_window := push s1.side_window b2,
        head_window := push s1.head_window b3 })

/-- Relational embedding of one iteration of the frame loop.  `input`
is `none` when the pose estimator reports no landmarks (the frame is
passed through with no state change); `calibrate` says whether the
calibration key was read this frame.  An exception from the metric
computation aborts the iteration (and the program). -/
def stepRel (s : CoreState) (input : Option Landmarks) (calibrate : Bool)
    (out : Except AngleError CoreState) : Prop :=
  match input with
  | none => out = .ok s
  | some lm =>
    (∃ e, extractRel lm (.error e) ∧ out = .error e) ∨
    (∃ m : FrameMetrics, extractRel lm (.ok m) ∧
      afterMetrics (postCalib s calibrate m) m out)

/-- Iterated frame processing over a list of frames, each given as the
optional landmarks and the calibration signal of that frame; an
exception stops the run. -/
def runRel : CoreState → List (Option Landmarks × Bool) →
    Except AngleError CoreState → Prop
  | s, [], out => out = .ok s
  | s, f :: fs, out =>
    (∃ s1, stepRel s f.1 f.2 (.ok s1) ∧ runRel s1 fs out) ∨
    (∃ e, stepRel s f.1 f.2 (.error e) ∧ out = .error e)

/-! ### Determinism of the embedded computations -/

theorem angleRel_det (p1 p2 p3 : Point3) (r r' : Except AngleError ℝ)
    (h : angleRel p1 p2 p3 r) (h' : angleRel p1 p2 p3 r') : r = r' := by
  rcases h with ⟨hm, hr⟩ | ⟨hm, hc, hr⟩ | ⟨hm, hc1, hc2, hr⟩ <;>
    rcases h' with ⟨hm', hr'⟩ | ⟨hm', hc', hr'⟩ | ⟨hm', hc1', hc2', hr'⟩ <;>
    subst hr <;> subst hr'
  · rfl
  · exact absurd hm hm'
  · exact absurd hm hm'
  · exact absurd hm' hm
  · rfl
  · rcases hc with hc | hc <;> linarith
  · exact absurd hm' hm
  · rcases hc' with hc' | hc' <;> linarith
  · rfl

theorem extractRel_det (lm : Landmarks) (r r' : Except AngleError FrameMetrics)
    (h : extractRel lm r) (h' : extractRel lm r') : r = r' := by
  rcases h with ⟨e, ha, hr⟩ | ⟨θ, ha, hr⟩ <;>
    rcases h' with ⟨e', ha', hr'⟩ | ⟨θ', ha', hr'⟩ <;>
    have hd := angleRel_det _ _ _ _ _ ha ha' <;>
    subst hr <;> subst hr' <;>
    simp_all

/-! ### A concrete frame for instantiating the theorems

The vectors ear to shoulder and ear to nose are the two unit axes, so
the angle computation succeeds with `acos 0` and the other two metrics
are zero. -/

def lmW : Landmarks where
  nose := ⟨0, 1, 0⟩
  left_ear := ⟨0, 0, 0⟩
  right_shoulder := ⟨0, 0, 0⟩
  left_shoulder := ⟨1, 0, 0⟩
  left_hip := ⟨0, 0, 0⟩

theorem angleRel_lmW :
    angleRel lmW.left_shoulder lmW.left_ear lmW.nose
      (.ok (Real.arccos 0 * 180 / Real.pi)) := by
  refine Or.inr (Or.inr ⟨?_, ?_, ?_, ?_⟩) <;>
    norm_num [lmW, magSq, dot2, vx, vy, Real.sqrt_one]

theorem extractRel_lmW :
    extractRel lmW (.ok ⟨0, 0, Real.arccos 0 * 180 / Real.pi⟩) := by
  refine Or.inr ⟨Real.arccos 0 * 180 / Real.pi, angleRel_lmW, ?_⟩
  simp [lmW]

theorem extract_metric_formulas_witness :
    (⟨0, 0, Real.arccos 0 * 180 / Real.pi⟩ : FrameMetrics).head_forward
        = lmW.right_shoulder.x - lmW.left_ear.x
    ∧ (⟨0, 0, Real.arccos 0 * 180 / Real.pi⟩ : FrameMetrics).head_side_slouch
        = |lmW.left_ear.z - lmW.left_hip.z|
    ∧ angleRel lmW.left_shoulder lmW.left_ear lmW.nose
        (.ok (⟨0, 0, Real.arccos 0 * 180 / Real.pi⟩ : FrameMetrics).head_angle) :=
  extract_metric_formulas lmW _ extractRel_lmW

/-! ### Behaviour of a calibration frame -/

/-- Comparing a metrics snapshot to itself trips none of the three
thresholds (each diff is exactly zero and the comparisons are strict). -/
theorem classify_self_no_flags (m : FrameMetrics) :
    ¬ (classify m m).is_slouch ∧ ¬ (classify m m).is_side_slouch
    ∧ ¬ (classify m m).is_head_lowered := by
  refine ⟨?_, ?_, ?_⟩ <;> norm_num [classify]

/-- One calibration frame: the baseline becomes the frame's metrics and,
because the classification guard `if baseline:` then sees the just-set
baseline, a `false` observation is appended to each window. -/
theorem stepRel_calib (s : CoreState) (lm : Landmarks) (m : FrameMetrics)
    (h : extractRel lm (.ok m)) :
    stepRel s (some lm) true
      (.ok { baseline := some m,
             slouch_window := push s.slouch_window false,
             side_window := push s.side_window false,
             head_window := push s.head_window false }) := by
  refine Or.inr ⟨m, h, Or.inr ⟨m, ?_, false, false, false, ?_, ?_, ?_, ?_⟩⟩
  · simp [postCalib]
  · norm_num [classify]
  · norm_num [classify]
  · norm_num [classify]
  · simp [postCalib]

/-- C2 as stated is false of the code: on a calibration frame the
source sets the baseline and then - the guard being `if baseline:`,
not an `else` - classifies this very frame against the just-set
baseline, appending an observation to each window; here the slouch
window grows from empty to one entry. -/
theorem calibration_frame_appends :
    ¬ ∀ s' : CoreState,
        stepRel initState (some lmW) true (.ok s') →
          s'.slouch_window = initState.slouch_window := by
  intro hclaim
  have h := hclaim
    { baseline := some ⟨0, 0, Real.arccos 0 * 180 / Real.pi⟩,
      slouch_window := push initState.slouch_window false,
      side_window := push initState.side_window false,
      head_window := push initState.head_window false }
    (stepRel_calib initState lmW _ extractRel_lmW)
  simp [initState, push, WINDOW_SIZE] at h

/-- C2 (amended): on a calibration frame with landmarks present the
pipeline stores the frame's metrics as the new baseline and then
classifies that same frame against the just-set baseline; all three
diffs are exactly zero, so every flag is false and one `false`
observation is appended to each of the three windows. -/
theorem calibration_frame_stores_and_classifies (s : CoreState) (lm : Landmarks)
    (m : FrameMetrics) (h : extractRel lm (.ok m)) :
    stepRel s (some lm) true
      (.ok { baseline := some m,
             slouch_window := push s.slouch_window false,
             side_window := push s.side_window false,
             head_window := push s.head_window false }) :=
  stepRel_calib s lm m h

theorem calibration_frame_stores_and_classifies_witness :
    stepRel initState (some lmW) true
      (.ok { baseline := some ⟨0, 0, Real.arccos 0 * 180 / Real.pi⟩,
             slouch_window := push initState.slouch_window false,
             side_window := push initState.side_window false,
             head_window := push initState.head_window false }) :=
  calibration_frame_stores_and_classifies initState lmW _ extractRel_lmW

/-- C7: calibration is an unconditional overwrite: after a calibration
frame with metrics `m1` followed by a calibration frame with metrics
`m2`, the active baseline is exactly `m2`; nothing of `m1` survives, no
merging or averaging occurs and no validation is applied. -/
theorem calibrate_overwrites (s s1 s2 : CoreState) (lm1 lm2 : Landmarks)
    (m1 m2 : FrameMetrics)
    (h1 : extractRel lm1 (.ok m1)) (h2 : extractRel lm2 (.ok m2))
    (hs1 : stepRel s (some lm1) true (.ok s1))
    (hs2 : stepRel s1 (some lm2) true (.ok s2)) :
    s2.baseline = some m2 := by
  rcases hs2 with ⟨e, _, hout⟩ | ⟨m, hm, hrest⟩
  · exact absurd hout (by simp)
  · have hmm : m = m2 := Except.ok.inj (extractRel_det lm2 _ _ hm h2)
    subst hmm
    rcases hrest with ⟨hbn, hout⟩ | ⟨base, _, b1, b2, b3, _, _, _, hout⟩
    · rw [show (postCalib s1 true m).baseline = some m from by simp [postCalib]] at hbn
      exact absurd hbn (by simp)
    · rw [Except.ok.inj hout]
      simp [postCalib]

theorem calibrate_overwrites_witness :
    ({ baseline := some (⟨0, 0, Real.arccos 0 * 180 / Real.pi⟩ : FrameMetrics),
       slouch_window := push (push initState.slouch_window false) false,
       side_window := push (push initState.side_window false) false,
       head_window := push (push initState.head_window false) false } :
        CoreState).baseline
      = some ⟨0, 0, Real.arccos 0 * 180 / Real.pi⟩ :=
  calibrate_overwrites initState
    { baseline := some ⟨0, 0, Real.arccos 0 * 180 / Real.pi⟩,
      slouch_window := push initState.slouch_window false,
      side_window := push initState.side_window false,
      head_window := push initState.head_window false }
    { baseline := some ⟨0, 0, Real.arccos 0 * 180 / Real.pi⟩,
      slouch_window := push (push initState.slouch_window false) false,
      side_window := push (push initState.side_window false) false,
      head_window := push (push initState.head_window false) false }
    lmW lmW _ _ extractRel_lmW extractRel_lmW
    (stepRel_calib initState lmW _ extractRel_lmW)
    (stepRel_calib _ lmW _ extractRel_lmW)

/-! ### Frames without landmarks and runs without calibration -/

/-- C9: a frame on which no landmarks are available leaves the entire
core state unchanged, and the unchanged state is the only possible
outcome of that frame: no metrics, no classification, baseline and the
contents and length of all three windows identical. -/
theorem missing_landmarks_no_change (s : CoreState) (calibrate : Bool) :
    stepRel s none calibrate (.ok s)
    ∧ ∀ out, stepRel s none calibrate out → out = .ok s :=
  ⟨rfl, fun _ h => h⟩

theorem missing_landmarks_no_change_witness :
    (Except.ok initState : Except AngleError CoreState) = .ok initState :=
  (missing_landmarks_no_change initState false).2 (.ok initState)
    (missing_landmarks_no_change initState false).1

/-- A frame processed without calibration command on an uncalibrated
state either leaves the state untouched or aborts with an exception;
in particular it never appends to a window. -/
theorem stepRel_uncalibrated (s : CoreState) (hb : s.baseline = none)
    (input : Option Landmarks) (out : Except AngleError CoreState)
    (h : stepRel s input false out) :
    out = .ok s ∨ ∃ e, out = .error e := by
  cases input with
  | none => exact Or.inl h
  | some lm =>
    rcases h with ⟨e, _, hout⟩ | ⟨m, _, hrest⟩
    · exact Or.inr ⟨e, hout⟩
    · rcases hrest with ⟨_, hout⟩ | ⟨base, hbs, _⟩
      · exact Or.inl (by simpa [postCalib] using hout)
      · rw [show postCalib s false m = s from by simp [postCalib], hb] at hbs
        exact absurd hbs (by simp)

theorem runRel_uncalibrated (frames : List (Option Landmarks × Bool)) :
    (∀ f ∈ frames, f.2 = false) →
      ∀ out, runRel initState frames out →
        out = .ok initState ∨ ∃ e, out = .error e := by
  induction frames with
  | nil =>
    intro _ out h
    exact Or.inl h
  | cons f fs ih =>
    intro hc out h
    rcases h with ⟨s1, hstep, hrun⟩ | ⟨e, _, hout⟩
    · rw [hc f (List.mem_cons_self f fs)] at hstep
      rcases stepRel_uncalibrated initState rfl f.1 _ hstep with h1 | ⟨e, h1⟩
      · rw [Except.ok.inj h1] at hrun
        exact ih (fun g hg => hc g (List.mem_cons_of_mem f hg)) out hrun
      · exact absurd h1 (by simp)
    · exact Or.inr ⟨e, hout⟩

/-- C8: if no calibration command is ever issued then, whatever the
landmark inputs of the frames, every state a successful run reaches is
still the initial one: the baseline stays absent, the three windows
stay empty (a frame without a baseline appends no observation at all),
and all three alert states are false. -/
theorem no_calibration_no_observations (frames : List (Option Landmarks × Bool))
    (hc : ∀ f ∈ frames, f.2 = false) (s : CoreState)
    (h : runRel initState frames (.ok s)) :
    s = initState
    ∧ s.slouch_window = [] ∧ s.side_window = [] ∧ s.head_window = []
    ∧ isAlerting s.slouch_window = false
    ∧ isAlerting s.side_window = false
    ∧ isAlerting s.head_window = false := by
  rcases runRel_uncalibrated frames hc (.ok s) h with h1 | ⟨e, h1⟩
  · rw [Except.ok.inj h1]
    exact ⟨rfl, rfl, rfl, rfl, rfl, rfl, rfl⟩
  · exact absurd h1 (by simp)

theorem no_calibration_no_observations_witness :
    initState = initState
    ∧ initState.slouch_window = [] ∧ initState.side_window = []
    ∧ initState.head_window = []
    ∧ isAlerting initState.slouch_window = false
    ∧ isAlerting initState.side_window = false
    ∧ isAlerting initState.head_window = false :=
  no_calibration_no_observations [(none, false)]
    (by
      intro f hf
      rw [List.mem_singleton] at hf
      rw [hf])
    initState (Or.inl ⟨initState, rfl, rfl⟩)

/-! ### Lockstep advancement of the three windows -/

theorem stepRel_windows (s : CoreState) (input : Option Landmarks)
    (calibrate : Bool) (s1 : CoreState)
    (h : stepRel s input calibrate (.ok s1)) :
    (s1.slouch_window = s.slouch_window ∧ s1.side_window = s.side_window ∧
      s1.head_window = s.head_window)
    ∨ ∃ b1 b2 b3 : Bool,
        s1.slouch_window = push s.slouch_window b1 ∧
        s1.side_window = push s.side_window b2 ∧
        s1.head_window = push s.head_window b3 := by
  have hpc : ∀ m : FrameMetrics,
      (postCalib s calibrate m).slouch_window = s.slouch_window
      ∧ (postCalib s calibrate m).side_window = s.side_window
      ∧ (postCalib s calibrate m).head_window = s.head_window := by
    intro m
    cases calibrate <;> simp [postCalib]
  cases input with
  | none =>
    have hss : (Except.ok s1 : Except AngleError CoreState) = Except.ok s := h
    rw [Except.ok.inj hss]
    exact Or.inl ⟨rfl, rfl, rfl⟩
  | some lm =>
    rcases h with ⟨e, _, hout⟩ | ⟨m, _, hrest⟩
    · exact absurd hout (by simp)
    · rcases hrest with ⟨_, hout⟩ | ⟨base, _, b1, b2, b3, _, _, _, hout⟩
      · rw [Except.ok.inj hout]
        exact Or.inl (hpc m)
      · right
        refine ⟨b1, b2, b3, ?_, ?_, ?_⟩ <;>
          rw [Except.ok.inj hout] <;>
          simp [(hpc m).1, (hpc m).2.1, (hpc m).2.2]

theorem push_length_eq (w1 w2 : List Bool) (b1 b2 : Bool)
    (h : w1.length = w2.length) :
    (push w1 b1).length = (push w2 b2).length := by
  rw [length_push, length_push, h]

theorem runRel_lockstep_aux (frames : List (Option Landmarks × Bool)) :
    ∀ s0 s : CoreState,
      s0.slouch_window.length = s0.side_window.length →
      s0.side_window.length = s0.head_window.length →
      runRel s0 frames (.ok s) →
        s.slouch_window.length = s.side_window.length ∧
        s.side_window.length = s.head_window.length := by
  induction frames with
  | nil =>
    intro s0 s h1 h2 h
    have hss : (Except.ok s : Except AngleError CoreState) = Except.ok s0 := h
    rw [Except.ok.inj hss]
    exact ⟨h1, h2⟩
  | cons f fs ih =>
    intro s0 s h1 h2 h
    rcases h with ⟨s1, hstep, hrun⟩ | ⟨e, _, hout⟩
    · rcases stepRel_windows s0 f.1 f.2 s1 hstep with ⟨e1, e2, e3⟩ |
        ⟨b1, b2, b3, e1, e2, e3⟩
      · exact ih s1 s (by rw [e1, e2]; exact h1) (by rw [e2, e3]; exact h2) hrun
      · exact ih s1 s (by rw [e1, e2]; exact push_length_eq _ _ _ _ h1)
          (by rw [e2, e3]; exact push_length_eq _ _ _ _ h2) hrun
    · exact absurd hout (by simp)

/-- C10: the three hysteresis windows advance in lockstep: a successful
frame step either leaves all three windows unchanged or appends exactly
one observation to each of them; consequently at every state reachable
from the initial state the forward, side and head windows have equal
length. -/
theorem windows_lockstep :
    (∀ (s : CoreState) (input : Option Landmarks) (calibrate : Bool)
        (s1 : CoreState),
        stepRel s input calibrate (.ok s1) →
          (s1.slouch_window = s.slouch_window ∧ s1.side_window = s.side_window ∧
            s1.head_window = s.head_window)
          ∨ ∃ b1 b2 b3 : Bool,
              s1.slouch_window = push s.slouch_window b1 ∧
              s1.side_window = push s.side_window b2 ∧
              s1.head_window = push s.head_window b3)
    ∧ ∀ (frames : List (Option Landmarks × Bool)) (s : CoreState),
        runRel initState frames (.ok s) →
          s.slouch_window.length = s.side_window.length ∧
          s.side_window.length = s.head_window.length :=
  ⟨stepRel_windows, fun frames s h => runRel_lockstep_aux frames initState s rfl rfl h⟩

theorem windows_lockstep_witness :
    initState.slouch_window.length = initState.side_window.length ∧
    initState.side_window.length = initState.head_window.length :=
  windows_lockstep.2 [] initState rfl

end Posture
